import Mathlib

/-!
Shallow embedding of the connection registry / message-routing core of the
`score-display` server (Go), covering `server/timer.go`, `server/hub.go` and
the websocket connection handler (`readPump` / `serveWs`).

Go `int` fields are modelled as `Int` (decrement-only arithmetic, no overflow
relevant).  The concurrent hub loop and timer goroutine are modelled
sequentially: each channel-case of `Hub.Run` and each timer operation is one
atomic step, `goroutineRunning` is identified with `State.Running`, and the
one-second ticker is an explicit `tick` operation.
-/

/-- `TimerState` from `server/timer.go` (`Running`, `TimeLeft`, `TotalTime`). -/
structure TimerState where
  running : Bool
  timeLeft : Int
  totalTime : Int
deriving Repr, DecidableEq

/-- Initial state from `NewTimerManager`: not running, `TimeLeft = 0`
(`TotalTime` is the Go zero value 0). -/
def timerInit : TimerState :=
  { running := false, timeLeft := 0, totalTime := 0 }

/-- `TimerManager.Start` (`server/timer.go:33-75`): no-op when already running
or when `TimeLeft <= 0`; otherwise sets `Running := true` and broadcasts the
new state.  The second component collects the `timer_update` broadcasts the
operation publishes. -/
def timerStart (s : TimerState) : TimerState × List TimerState :=
  if s.running then (s, [])
  else if s.timeLeft ≤ 0 then (s, [])
  else
    let s' := { s with running := true }
    (s', [s'])

/-- `TimerManager.Pause` (`server/timer.go:78-95`): when running, sets
`Running := false` (ticker stopped) and broadcasts; otherwise no-op. -/
def timerPause (s : TimerState) : TimerState × List TimerState :=
  if s.running then
    let s' := { s with running := false }
    (s', [s'])
  else (s, [])

/-- `TimerManager.Reset` (`server/timer.go:98-105`): `Pause()` followed by
setting `TotalTime` and `TimeLeft` to `seconds` and broadcasting. -/
def timerReset (seconds : Int) (s : TimerState) : TimerState × List TimerState :=
  let p := timerPause s
  let s2 := { p.1 with totalTime := seconds, timeLeft := seconds }
  (s2, p.2 ++ [s2])

/-- One firing of the ticker goroutine's `<-tm.ticker.C` case
(`server/timer.go:59-68`): while running, if `TimeLeft > 0` decrement and
broadcast, otherwise call `Pause` (auto-stop at zero).  When the driver
goroutine is not active (not running) a tick does nothing. -/
def timerTick (s : TimerState) : TimerState × List TimerState :=
  if s.running then
    if s.timeLeft > 0 then
      let s' := { s with timeLeft := s.timeLeft - 1 }
      (s', [s'])
    else timerPause s
  else (s, [])

/-- The timer operations reachable from the Command Dispatcher
(`timer_control` handling in `readPump`) plus the ticker firing. -/
inductive TimerOp where
  | start : TimerOp
  | pause : TimerOp
  | reset (seconds : Int) : TimerOp
  | tick : TimerOp
deriving Repr, DecidableEq

/-- Apply one timer operation, returning the new state and the broadcasts it
published. -/
def applyTimerOp (s : TimerState) : TimerOp → TimerState × List TimerState
  | .start => timerStart s
  | .pause => timerPause s
  | .reset n => timerReset n s
  | .tick => timerTick s

/-- Run a sequence of timer operations, accumulating every published
`timer_update` broadcast in order. -/
def runTimer (s : TimerState) : List TimerOp → TimerState × List TimerState
  | [] => (s, [])
  | op :: ops =>
    let r1 := applyTimerOp s op
    let r2 := runTimer r1.1 ops
    (r2.1, r1.2 ++ r2.2)

/-- `Pause` always leaves `running = false` and the time fields unchanged. -/
lemma timerPause_fst (s : TimerState) :
    (timerPause s).1 = ⟨false, s.timeLeft, s.totalTime⟩ := by
  rcases s with ⟨r, tl, tt⟩
  cases r <;> simp [timerPause]

/-- `Reset n` always yields the state `⟨false, n, n⟩`. -/
lemma timerReset_fst (n : Int) (s : TimerState) :
    (timerReset n s).1 = ⟨false, n, n⟩ := by
  simp [timerReset, timerPause_fst]

/-- Every broadcast a single operation publishes satisfies
`running → 0 ≤ timeLeft`. -/
lemma applyTimerOp_broadcast_nonneg (s : TimerState) (op : TimerOp)
    (b : TimerState) (hb : b ∈ (applyTimerOp s op).2)
    (hr : b.running = true) : 0 ≤ b.timeLeft := by
  rcases s with ⟨r, tl, tt⟩
  cases op with
  | start =>
    cases r with
    | true => simp [applyTimerOp, timerStart] at hb
    | false =>
      by_cases htl : tl ≤ 0
      · simp [applyTimerOp, timerStart, htl] at hb
      · simp [applyTimerOp, timerStart, htl] at hb
        subst hb
        show 0 ≤ tl
        omega
  | pause =>
    cases r with
    | false => simp [applyTimerOp, timerPause] at hb
    | true =>
      simp [applyTimerOp, timerPause] at hb
      subst hb
      simp at hr
  | reset n =>
    cases r with
    | false =>
      simp [applyTimerOp, timerReset, timerPause] at hb
      subst hb
      simp at hr
    | true =>
      simp [applyTimerOp, timerReset, timerPause] at hb
      rcases hb with hb | hb <;> subst hb <;> simp at hr
  | tick =>
    cases r with
    | false => simp [applyTimerOp, timerTick] at hb
    | true =>
      by_cases htl : tl > 0
      · simp [applyTimerOp, timerTick, htl] at hb
        subst hb
        show 0 ≤ tl - 1
        omega
      · simp [applyTimerOp, timerTick, timerPause, htl] at hb
        subst hb
        simp at hr

/-- Every broadcast published along a run satisfies `running → 0 ≤ timeLeft`. -/
lemma runTimer_broadcast_nonneg (ops : List TimerOp) :
    ∀ s b : TimerState, b ∈ (runTimer s ops).2 → b.running = true →
      0 ≤ b.timeLeft := by
  induction ops with
  | nil =>
    intro s b hb _
    simp [runTimer] at hb
  | cons op ops ih =>
    intro s b hb hr
    simp only [runTimer, List.mem_append] at hb
    rcases hb with hb | hb
    · exact applyTimerOp_broadcast_nonneg s op b hb hr
    · exact ih _ b hb hr

/-- C1, counterexample: starting from the initial state, the run
`reset 1; start; tick` publishes the broadcast
`{running := true, timeLeft := 0, totalTime := 1}` — an observed Timer State
with `running = true` and `timeLeft = 0`, refuting the claimed invariant. -/
theorem timer_running_zero_broadcast_exists :
    ((runTimer timerInit [TimerOp.reset 1, TimerOp.start, TimerOp.tick]).2).any
      (fun b => b.running && decide (b.timeLeft = 0)) = true := by
  decide

/-- C1 (amended): every `timer_update` broadcast published by any run of the
timer operations satisfies `running → timeLeft ≥ 0`; the broadcast of the tick
that decrements `timeLeft` to 0 still carries `running = true`, and the next
tick fired in a running state with `timeLeft ≤ 0` transitions to not-running
and publishes only not-running states. -/
theorem timer_broadcasts_running_nonneg :
    (∀ (s0 : TimerState) (ops : List TimerOp) (b : TimerState),
      b ∈ (runTimer s0 ops).2 → b.running = true → 0 ≤ b.timeLeft)
    ∧ (∀ s : TimerState, s.running = true → s.timeLeft ≤ 0 →
        (timerTick s).1.running = false
        ∧ ∀ b ∈ (timerTick s).2, b.running = false) := by
  constructor
  · intro s0 ops b hb hr
    exact runTimer_broadcast_nonneg ops s0 b hb hr
  · intro s hr hle
    have hnotpos : ¬ s.timeLeft > 0 := by omega
    constructor
    · simp [timerTick, timerPause, hr, hnotpos]
    · intro b hb
      simp [timerTick, timerPause, hr, hnotpos] at hb
      subst hb
      rfl

/-- C1 witness: concrete instantiation of both conjuncts. -/
theorem timer_broadcasts_running_nonneg_check :
    (0 : Int) ≤ (⟨true, 0, 1⟩ : TimerState).timeLeft
    ∧ (timerTick ⟨true, 0, 1⟩).1.running = false := by
  refine ⟨?_, ?_⟩
  · exact timer_broadcasts_running_nonneg.1 timerInit
      [TimerOp.reset 1, TimerOp.start, TimerOp.tick] ⟨true, 0, 1⟩ (by decide) (by decide)
  · exact (timer_broadcasts_running_nonneg.2 ⟨true, 0, 1⟩ (by decide) (by decide)).1

/-- C4, counterexample: `Reset` stores its argument without clamping
(`server/timer.go:102-103`), so `timer_control {action:"reset", seconds:-1}`
yields a reachable state with `timeLeft = -1 < 0`. -/
theorem timer_reset_negative_reachable :
    (runTimer timerInit [TimerOp.reset (-1)]).1.timeLeft < 0 := by
  decide

/-- C4 (amended): provided the starting state has `timeLeft ≥ 0` and every
`reset` in the run carries a non-negative argument, every reachable state has
`timeLeft ≥ 0`; the code does not clamp, so a negative decoded `seconds` is
stored verbatim. -/
theorem timer_timeLeft_nonneg_of_nonneg_resets
    (s0 : TimerState) (ops : List TimerOp)
    (h0 : 0 ≤ s0.timeLeft)
    (hres : ∀ n : Int, TimerOp.reset n ∈ ops → 0 ≤ n) :
    0 ≤ (runTimer s0 ops).1.timeLeft := by
  induction ops generalizing s0 with
  | nil => simpa [runTimer]
  | cons op ops ih =>
    have hres' : ∀ n : Int, TimerOp.reset n ∈ ops → 0 ≤ n := by
      intro n hn
      exact hres n (List.mem_cons_of_mem _ hn)
    have hstep : 0 ≤ (applyTimerOp s0 op).1.timeLeft := by
      cases op with
      | start =>
        rcases s0 with ⟨r, tl, tt⟩
        cases r with
        | true => simpa [applyTimerOp, timerStart] using h0
        | false =>
          by_cases htl : tl ≤ 0
          · simpa [applyTimerOp, timerStart, htl] using h0
          · simpa [applyTimerOp, timerStart, htl] using h0
      | pause =>
        simpa [applyTimerOp, timerPause_fst] using h0
      | reset n =>
        have hn : 0 ≤ n := hres n (by simp)
        simpa [applyTimerOp, timerReset_fst] using hn
      | tick =>
        rcases s0 with ⟨r, tl, tt⟩
        cases r with
        | false => simpa [applyTimerOp, timerTick] using h0
        | true =>
          by_cases htl : tl > 0
          · have h0' : 0 ≤ tl := by simpa using h0
            simp [applyTimerOp, timerTick, htl]
            omega
          · simpa [applyTimerOp, timerTick, timerPause, htl] using h0
    simpa [runTimer] using ih (applyTimerOp s0 op).1 hstep hres'

/-- C4 witness: the amended statement at a concrete run `reset 2; start; tick;
tick; tick` (ticking past zero), whose final `timeLeft` is `0 ≥ 0`. -/
theorem timer_timeLeft_nonneg_check :
    0 ≤ (runTimer timerInit
      [TimerOp.reset 2, TimerOp.start, TimerOp.tick, TimerOp.tick, TimerOp.tick]).1.timeLeft :=
  timer_timeLeft_nonneg_of_nonneg_resets timerInit
    [TimerOp.reset 2, TimerOp.start, TimerOp.tick, TimerOp.tick, TimerOp.tick]
    (by decide)
    (by
      intro n hn
      simp [TimerOp.reset.injEq] at hn
      omega)

/-- C8: `reset n` always yields the state
`{running := false, timeLeft := n, totalTime := n}` whatever the prior state,
publishes at least one broadcast whose last element is that state (so it
publishes even when the engine was already idle), and repeating `reset n` on
the result yields the same state again and publishes it again (idempotence). -/
theorem timer_reset_idempotent_publishes (s : TimerState) (n : Int) :
    (timerReset n s).1 = ⟨false, n, n⟩
    ∧ 1 ≤ (timerReset n s).2.length
    ∧ (timerReset n s).2.getLast? = some ⟨false, n, n⟩
    ∧ timerReset n (timerReset n s).1 = (⟨false, n, n⟩, [⟨false, n, n⟩]) := by
  rcases s with ⟨r, tl, tt⟩
  cases r <;> simp [timerReset, timerPause]

/-!
## Hub / Registry model (`server/hub.go`)

The live set `h.Clients` (a Go map) is modelled as a list; eviction order in a
broadcast follows the list.  Messages on the wire are modelled by `WireMsg`
instead of JSON bytes.
-/

/-- One `ClientInfo` roster entry built by `Hub.broadcastClientList`
(`server/hub.go:162-184`). -/
structure ClientInfo where
  id : String
  name : String
  addr : String
  displayMode : String
deriving Repr, DecidableEq

/-- The server→client wire messages of §6, in place of their JSON encodings. -/
inductive WireMsg where
  | timerUpdate (s : TimerState) : WireMsg
  | setResult (file : String) : WireMsg
  | displayMode (mode : String) : WireMsg
  | updateConfig (key value : String) : WireMsg
  | errorMsg (text : String) : WireMsg
  | clientList (roster : List ClientInfo) : WireMsg
deriving Repr, DecidableEq

/-- `Client` from `server/hub.go:19-28`, with its buffered `Send` channel
modelled as `queue` (pending messages) plus `cap` (channel capacity), and the
`sync.Once` close guard as `onceDone`.  `closeCalls` counts how many times
`close(c.Send)` actually executed. -/
structure HClient where
  id : String
  name : String
  addr : String
  displayMode : String
  queue : List WireMsg
  cap : Nat
  onceDone : Bool
  closeCalls : Nat
deriving Repr, DecidableEq

/-- `Client.closeClientSend` (`server/hub.go:31-35`): `closeOnce.Do(close)` —
the channel close runs only the first time. -/
def closeClientSend (c : HClient) : HClient :=
  if c.onceDone then c
  else { c with onceDone := true, closeCalls := c.closeCalls + 1 }

/-- A non-blocking channel send (`select { case ch <- msg: default: }`):
enqueue when the buffer has capacity, otherwise report failure. -/
def trySend (c : HClient) (m : WireMsg) : HClient × Bool :=
  if c.queue.length < c.cap then ({ c with queue := c.queue ++ [m] }, true)
  else (c, false)

/-- `Hub` state (`server/hub.go:37-52`): live set, `State.ActiveResult`, and
the configured `MaxClients` (0 = unlimited). -/
structure Hub where
  clients : List HClient
  activeResult : String
  maxClients : Nat
deriving Repr, DecidableEq

/-- The rejection text marshalled in the `Register` case. -/
def limitErrorText : String := "Server connection limit reached"

/-- The `Register` case of `Hub.Run` (`server/hub.go:73-101`): when
`MaxClients > 0` and the live set is already at the limit, the hub leaves its
state untouched, makes one non-blocking attempt to send an `error` message to
the connection and closes its queue; otherwise the connection is appended to
the live set.  The third component records the error-message send attempts
made toward the connection. -/
def registerStep (h : Hub) (c : HClient) : Hub × HClient × List WireMsg :=
  if h.maxClients > 0 ∧ h.clients.length ≥ h.maxClients then
    let c1 := (trySend c (WireMsg.errorMsg limitErrorText)).1
    (h, closeClientSend c1, [WireMsg.errorMsg limitErrorText])
  else ({ h with clients := h.clients ++ [c] }, c, [])

/-- The loop body of `Hub.broadcastData` (`server/hub.go:137-158`): each live
client either receives `m` on its queue (non-blocking send succeeds) and is
kept, or is collected for removal; removed clients get their queue closed
after the lock is released.  Returns (kept clients, removed clients). -/
def broadcastLoop (m : WireMsg) : List HClient → List HClient × List HClient
  | [] => ([], [])
  | c :: rest =>
    let r := broadcastLoop m rest
    if c.queue.length < c.cap then
      ({ c with queue := c.queue ++ [m] } :: r.1, r.2)
    else (r.1, closeClientSend c :: r.2)

/-- `Hub.broadcastData`: the hub keeps exactly the clients whose queue had
capacity (message appended) and closes the rest. -/
def broadcastData (h : Hub) (m : WireMsg) : Hub × List HClient :=
  let r := broadcastLoop m h.clients
  ({ h with clients := r.1 }, r.2)

/-- The roster projection of one client (`server/hub.go:169-184`): empty name
becomes `"Unknown"`, empty display mode becomes `"show_result"`. -/
def rosterEntry (c : HClient) : ClientInfo :=
  { id := c.id
  , name := if c.name = "" then "Unknown" else c.name
  , addr := c.addr
  , displayMode := if c.displayMode = "" then "show_result" else c.displayMode }

/-- The unsorted roster list built by `Hub.broadcastClientList`. -/
def rosterEntries (h : Hub) : List ClientInfo := h.clients.map rosterEntry

/-- `strings.ToLower` restricted to ASCII, as used on the display names. -/
def lowerStr (s : String) : String := ⟨s.data.map Char.toLower⟩

/-- Go's lexicographic string `<`, on the character sequences (coincides with
Go's byte-wise order on the ASCII data involved). -/
def strLtB (a b : String) : Bool := decide (a.data < b.data)

/-- The comparison function passed to `sort.Slice` in `broadcastClientList`
(`server/hub.go:188-193`): when the names differ byte-wise compare their
lower-cased forms, otherwise compare addresses. -/
def clientLess (x y : ClientInfo) : Bool :=
  if x.name ≠ y.name then strLtB (lowerStr x.name) (lowerStr y.name)
  else strLtB x.addr y.addr

/-- Go's `sort.Slice` post-condition: output `l` has no pair `i < j` with
`less (l at j) (l at i)`. -/
def isSortedWrt : List ClientInfo → Bool
  | [] => true
  | x :: rest => rest.all (fun y => ! clientLess y x) && isSortedWrt rest

/-!
## Command Dispatcher: `client_command` (current `readPump` variant)

Models the `client_command` case of `Client.readPump` that accompanies
`server/hub.go` (buffered `SendTo`, single targeted send): the target is
resolved by remote address against the live set; for a non-`rename` command
the matched client's `DisplayMode` is updated under the lock, one
`display_mode` message is submitted to the targeted-send queue, and the
roster is republished.
-/

/-- The resolution loop: walk the live set, and at the first client whose
address equals `target` update its `DisplayMode` (unless the command is
`"rename"`) and stop.  Returns the updated list and whether a target was
found. -/
def findAndSetMode : List HClient → String → String → List HClient × Bool
  | [], _, _ => ([], false)
  | c :: rest, target, cmd =>
    if c.addr = target then
      if cmd = "rename" then (c :: rest, true)
      else ({ c with displayMode := cmd } :: rest, true)
    else
      let r := findAndSetMode rest target cmd
      (c :: r.1, r.2)

/-- The `client_command` case: returns the updated hub, the list of targeted
send attempts submitted for the resolved target, and whether the roster was
republished. -/
def handleClientCommand (h : Hub) (target cmd value : String) :
    Hub × List WireMsg × Bool :=
  let r := findAndSetMode h.clients target cmd
  let h' := { h with clients := r.1 }
  if r.2 then
    if cmd = "rename" then (h', [WireMsg.updateConfig "ClientName" value], false)
    else (h', [WireMsg.displayMode cmd], true)
  else (h', [], false)

/-!
## Connection establishment (`serveWs`, current variant)
-/

/-- A freshly upgraded connection as built in `serveWs`: empty name and
display mode, empty `Send` buffer of capacity 256. -/
def newConnClient (a : String) : HClient :=
  { id := "", name := "", addr := a, displayMode := ""
  , queue := [], cap := 256, onceDone := false, closeCalls := 0 }

/-- The initial messages `serveWs` enqueues to a new connection, in order:
the current Timer State; the active-content identifier when one is set; the
connection's display mode, defaulted to `"show_result"` when empty. -/
def serveWsSends (ts : TimerState) (activeResult : String) (c : HClient) :
    List WireMsg :=
  [WireMsg.timerUpdate ts]
    ++ (if activeResult ≠ "" then [WireMsg.setResult activeResult] else [])
    ++ [WireMsg.displayMode
          (if c.displayMode = "" then "show_result" else c.displayMode)]

/-!
## Lifecycle of a single connection through the hub

`ConnSt` tracks one distinguished connection: whether it is currently in the
live set, its client record, the number of other live clients, and the
configured maximum.  Each `ConnOp` is one case of `Hub.Run` touching this
connection.
-/

inductive ConnOp where
  | register : ConnOp
  | unregister : ConnOp
  | sendTo (m : WireMsg) : ConnOp
  | bcast (m : WireMsg) : ConnOp
deriving Repr, DecidableEq

structure ConnSt where
  inSet : Bool
  client : HClient
  others : Nat
  maxClients : Nat
deriving Repr, DecidableEq

/-- The enqueue-or-evict policy shared by the `SendTo` case
(`server/hub.go:117-129`) and the broadcast loop, restricted to the tracked
connection: when it is live, a non-blocking send either enqueues `m` or
removes the connection and closes its queue. -/
def deliverOrEvict (s : ConnSt) (m : WireMsg) : ConnSt :=
  if s.inSet then
    if (trySend s.client m).2 then { s with client := (trySend s.client m).1 }
    else { s with inSet := false, client := closeClientSend s.client }
  else s

/-- One `Hub.Run` case applied to the tracked connection. -/
def stepConn (s : ConnSt) : ConnOp → ConnSt
  | .register =>
    if s.maxClients > 0
        ∧ s.others + (if s.inSet then 1 else 0) ≥ s.maxClients then
      { s with client :=
          closeClientSend (trySend s.client (WireMsg.errorMsg limitErrorText)).1 }
    else { s with inSet := true }
  | .unregister =>
    if s.inSet then { s with inSet := false, client := closeClientSend s.client }
    else s
  | .sendTo m => deliverOrEvict s m
  | .bcast m => deliverOrEvict s m

/-- A fresh connection: not yet registered, queue open and never closed. -/
def initConn (c : HClient) (others maxClients : Nat) : ConnSt :=
  { inSet := false
  , client := { c with onceDone := false, closeCalls := 0 }
  , others := others
  , maxClients := maxClients }

def runConn (s : ConnSt) : List ConnOp → ConnSt
  | [] => s
  | op :: ops => runConn (stepConn s op) ops

/-- `closeClientSend` always leaves the once-guard set. -/
lemma closeClientSend_onceDone (c : HClient) :
    (closeClientSend c).onceDone = true := by
  by_cases h : c.onceDone <;> simp [closeClientSend, h]

/-- A non-blocking send never touches the close state. -/
lemma trySend_close_state (c : HClient) (m : WireMsg) :
    (trySend c m).1.onceDone = c.onceDone
    ∧ (trySend c m).1.closeCalls = c.closeCalls := by
  by_cases h : c.queue.length < c.cap <;> simp [trySend, h]

/-!
## C2: roster ordering
-/

def bobClient : HClient :=
  { id := "1", name := "bob", addr := "A", displayMode := "show_result"
  , queue := [], cap := 256, onceDone := false, closeCalls := 0 }

def aliceUpperClient : HClient :=
  { id := "2", name := "Alice", addr := "B", displayMode := "show_result"
  , queue := [], cap := 256, onceDone := false, closeCalls := 0 }

def aliceLowerClient : HClient :=
  { id := "3", name := "alice", addr := "C", displayMode := "show_result"
  , queue := [], cap := 256, onceDone := false, closeCalls := 0 }

def rosterHub : Hub :=
  { clients := [bobClient, aliceUpperClient, aliceLowerClient]
  , activeResult := "", maxClients := 100 }

/-- C2, counterexample: for connections named `bob`,`Alice`,`alice` at
addresses `A`,`B`,`C`, the reversed roster `[alice@C, Alice@B, bob@A]` is a
permutation of the published entries that satisfies the `sort.Slice`
post-condition for `clientLess`, yet places `alice@C` before `Alice@B`
although `B < C`: the comparator orders the two case-insensitively-equal
names in neither direction, so the published roster is not tie-broken by
address for them. -/
theorem roster_tie_not_by_addr :
    ((rosterEntries rosterHub).reverse).Perm (rosterEntries rosterHub)
    ∧ (rosterEntries rosterHub).reverse
        = [rosterEntry aliceLowerClient, rosterEntry aliceUpperClient,
           rosterEntry bobClient]
    ∧ isSortedWrt ((rosterEntries rosterHub).reverse) = true
    ∧ lowerStr (rosterEntry aliceUpperClient).name
        = lowerStr (rosterEntry aliceLowerClient).name
    ∧ strLtB (rosterEntry aliceUpperClient).addr
        (rosterEntry aliceLowerClient).addr = true
    ∧ clientLess (rosterEntry aliceUpperClient) (rosterEntry aliceLowerClient)
        = false
    ∧ clientLess (rosterEntry aliceLowerClient) (rosterEntry aliceUpperClient)
        = false :=
  ⟨List.reverse_perm _, by decide, by decide, by decide, by decide,
   by decide, by decide⟩

/-- C2 (amended): the roster comparator sorts by lower-cased display name
whenever the names differ byte-wise, and falls back to the address comparison
only when the names are byte-equal; two entries whose names are equal only
case-insensitively therefore compare `false` in both directions and their
relative order is left unspecified by the sort. -/
theorem clientLess_tiebreak_characterization (x y : ClientInfo) :
    (x.name = y.name → clientLess x y = strLtB x.addr y.addr)
    ∧ (x.name ≠ y.name →
        clientLess x y = strLtB (lowerStr x.name) (lowerStr y.name)) := by
  constructor
  · intro h
    simp [clientLess, h]
  · intro h
    simp [clientLess, h]

/-- C2 witness: both branches of the characterization at concrete entries. -/
theorem clientLess_tiebreak_characterization_check :
    clientLess ⟨"1", "bob", "A", "m"⟩ ⟨"2", "bob", "B", "m"⟩ = strLtB "A" "B"
    ∧ clientLess ⟨"1", "bob", "A", "m"⟩ ⟨"2", "Alice", "B", "m"⟩
        = strLtB (lowerStr "bob") (lowerStr "Alice") :=
  ⟨(clientLess_tiebreak_characterization ⟨"1", "bob", "A", "m"⟩
      ⟨"2", "bob", "B", "m"⟩).1 rfl,
   (clientLess_tiebreak_characterization ⟨"1", "bob", "A", "m"⟩
      ⟨"2", "Alice", "B", "m"⟩).2 (by decide)⟩

/-!
## C3: targeted `display_mode` delivery attempts
-/

def cmdHub : Hub :=
  { clients := [{ id := "9", name := "kiosk", addr := "A"
                , displayMode := "show_result", queue := [], cap := 256
                , onceDone := false, closeCalls := 0 }]
  , activeResult := "", maxClients := 100 }

/-- C3, counterexample: a `client_command {target:"A", command:"show_timer"}`
aimed at a live connection at address `"A"` submits exactly one targeted
`display_mode` send — one attempt, not three. -/
theorem display_mode_attempted_once_not_thrice :
    ((handleClientCommand cmdHub "A" "show_timer" "").2.1).length = 1
    ∧ ((handleClientCommand cmdHub "A" "show_timer" "").2.1).length < 3 := by
  constructor <;> decide

/-- C3 (amended): for every non-`rename` `client_command` whose target
resolves to a live connection, exactly one delivery of the `display_mode`
message is attempted (a single submission to the buffered targeted-send
queue, no retries), and the roster is republished. -/
theorem display_mode_single_attempt (h : Hub) (target cmd value : String)
    (hcmd : cmd ≠ "rename")
    (hfound : (findAndSetMode h.clients target cmd).2 = true) :
    (handleClientCommand h target cmd value).2.1 = [WireMsg.displayMode cmd]
    ∧ (handleClientCommand h target cmd value).2.2 = true := by
  simp [handleClientCommand, hfound, hcmd]

/-- C3 witness: the amended statement at the concrete hub above. -/
theorem display_mode_single_attempt_check :
    (handleClientCommand cmdHub "A" "show_timer" "x").2.1
        = [WireMsg.displayMode "show_timer"]
    ∧ (handleClientCommand cmdHub "A" "show_timer" "x").2.2 = true :=
  display_mode_single_attempt cmdHub "A" "show_timer" "x" (by decide) (by decide)

/-!
## C5 / C10: registration limit
-/

/-- C5: a `register` arriving when the live set already holds the configured
positive maximum leaves the hub state (live set, active result, maximum)
unchanged, makes exactly one `error`-message attempt toward the connection,
and marks its queue closed; the connection is never added. -/
theorem register_at_limit_rejected (h : Hub) (c : HClient)
    (hmax : h.maxClients > 0) (hfull : h.clients.length ≥ h.maxClients) :
    (registerStep h c).1 = h
    ∧ (registerStep h c).2.2 = [WireMsg.errorMsg limitErrorText]
    ∧ (registerStep h c).2.1.onceDone = true := by
  have hcond : h.maxClients > 0 ∧ h.clients.length ≥ h.maxClients :=
    ⟨hmax, hfull⟩
  rw [registerStep, if_pos hcond]
  exact ⟨rfl, rfl, closeClientSend_onceDone _⟩

def fullHub : Hub :=
  { clients := [{ id := "1", name := "a", addr := "A"
                , displayMode := "show_result", queue := [], cap := 256
                , onceDone := false, closeCalls := 0 }]
  , activeResult := "", maxClients := 1 }

/-- C5 witness: rejecting a second connection on a hub whose limit is 1. -/
theorem register_at_limit_rejected_check :
    (registerStep fullHub (newConnClient "B")).1 = fullHub
    ∧ (registerStep fullHub (newConnClient "B")).2.2
        = [WireMsg.errorMsg limitErrorText]
    ∧ (registerStep fullHub (newConnClient "B")).2.1.onceDone = true :=
  register_at_limit_rejected fullHub (newConnClient "B") (by decide) (by decide)

/-- C10: with `MaxClients = 0` the limit check is disabled — every `register`
appends the connection to the live set, whatever the current size, and no
rejection message is attempted (0 means unlimited, not a limit of zero). -/
theorem register_unlimited_always_adds (h : Hub) (c : HClient)
    (hzero : h.maxClients = 0) :
    (registerStep h c).1.clients = h.clients ++ [c]
    ∧ (registerStep h c).2.2 = [] := by
  have hcond : ¬ (h.maxClients > 0 ∧ h.clients.length ≥ h.maxClients) := by
    intro hc
    omega
  rw [registerStep, if_neg hcond]
  exact ⟨rfl, rfl⟩

def unlimitedHub : Hub :=
  { clients := [bobClient, aliceUpperClient, aliceLowerClient]
  , activeResult := "", maxClients := 0 }

/-- C10 witness: a fourth connection is still added when the maximum is 0. -/
theorem register_unlimited_always_adds_check :
    (registerStep unlimitedHub (newConnClient "D")).1.clients
        = unlimitedHub.clients ++ [newConnClient "D"]
    ∧ (registerStep unlimitedHub (newConnClient "D")).2.2 = [] :=
  register_unlimited_always_adds unlimitedHub (newConnClient "D") (by decide)

/-!
## C6: broadcast delivery / eviction
-/

/-- The broadcast loop keeps exactly the clients with queue capacity (message
appended) and removes-and-closes exactly the others. -/
lemma broadcastLoop_spec (m : WireMsg) (cs : List HClient) :
    (broadcastLoop m cs).1
      = (cs.filter (fun c => decide (c.queue.length < c.cap))).map
          (fun c => { c with queue := c.queue ++ [m] })
    ∧ (broadcastLoop m cs).2
      = (cs.filter (fun c => ! decide (c.queue.length < c.cap))).map
          closeClientSend := by
  induction cs with
  | nil => simp [broadcastLoop]
  | cons c rest ih =>
    by_cases hc : c.queue.length < c.cap
    · simp [broadcastLoop, hc, ih.1, ih.2]
    · simp [broadcastLoop, hc, ih.1, ih.2]

/-- C6: `broadcast(m)` enqueues `m` to every live connection whose queue has
capacity and keeps exactly those; every connection without capacity is
removed from the live set (and its queue closed) within the same call. -/
theorem broadcast_enqueue_or_evict (h : Hub) (m : WireMsg) :
    (broadcastData h m).1.clients
      = (h.clients.filter (fun c => decide (c.queue.length < c.cap))).map
          (fun c => { c with queue := c.queue ++ [m] })
    ∧ (broadcastData h m).2
      = (h.clients.filter (fun c => ! decide (c.queue.length < c.cap))).map
          closeClientSend
    ∧ (∀ c ∈ h.clients, c.queue.length < c.cap →
        { c with queue := c.queue ++ [m] } ∈ (broadcastData h m).1.clients)
    ∧ (∀ c ∈ h.clients, ¬ c.queue.length < c.cap →
        closeClientSend c ∈ (broadcastData h m).2) := by
  refine ⟨(broadcastLoop_spec m h.clients).1, (broadcastLoop_spec m h.clients).2,
    ?_, ?_⟩
  · intro c hc hcap
    show _ ∈ (broadcastLoop m h.clients).1
    rw [(broadcastLoop_spec m h.clients).1]
    exact List.mem_map_of_mem _ (List.mem_filter.2 ⟨hc, by simpa using hcap⟩)
  · intro c hc hcap
    show _ ∈ (broadcastLoop m h.clients).2
    rw [(broadcastLoop_spec m h.clients).2]
    exact List.mem_map_of_mem _ (List.mem_filter.2 ⟨hc, by simpa using hcap⟩)

def roomyClient : HClient :=
  { id := "r", name := "roomy", addr := "R", displayMode := "show_result"
  , queue := [], cap := 2, onceDone := false, closeCalls := 0 }

def stuckClient : HClient :=
  { id := "s", name := "stuck", addr := "S", displayMode := "show_result"
  , queue := [WireMsg.displayMode "show_timer"], cap := 1
  , onceDone := false, closeCalls := 0 }

def mixedHub : Hub :=
  { clients := [roomyClient, stuckClient], activeResult := "", maxClients := 0 }

/-- C6 witness: broadcasting to one client with capacity and one with a full
queue delivers to the first and evicts-and-closes the second. -/
theorem broadcast_enqueue_or_evict_check :
    { roomyClient with queue := roomyClient.queue ++ [WireMsg.setResult "f"] }
        ∈ (broadcastData mixedHub (WireMsg.setResult "f")).1.clients
    ∧ closeClientSend stuckClient
        ∈ (broadcastData mixedHub (WireMsg.setResult "f")).2 :=
  ⟨(broadcast_enqueue_or_evict mixedHub (WireMsg.setResult "f")).2.2.1
      roomyClient (by decide) (by decide),
   (broadcast_enqueue_or_evict mixedHub (WireMsg.setResult "f")).2.2.2
      stuckClient (by decide) (by decide)⟩


/-!
## C7: the outbound queue is closed at most once
-/

/-- The coupling between the once-guard and the number of executed closes. -/
def closeInvariant (s : ConnSt) : Prop :=
  s.client.closeCalls = if s.client.onceDone then 1 else 0

/-- `closeClientSend` sets the guard and leaves exactly one executed close. -/
lemma closeClientSend_invariant (c : HClient)
    (hc : c.closeCalls = if c.onceDone then 1 else 0) :
    (closeClientSend c).closeCalls = 1
    ∧ (closeClientSend c).onceDone = true := by
  by_cases h : c.onceDone <;> simp [closeClientSend, h] at hc ⊢ <;> omega

/-- `closeClientSend` preserves the guard/count coupling. -/
lemma closeClientSend_keeps (c : HClient)
    (hc : c.closeCalls = if c.onceDone then 1 else 0) :
    (closeClientSend c).closeCalls
      = if (closeClientSend c).onceDone then 1 else 0 := by
  have h := closeClientSend_invariant c hc
  rw [h.1, h.2]
  simp

/-- A non-blocking send preserves the guard/count coupling. -/
lemma trySend_keeps (c : HClient) (m : WireMsg)
    (hc : c.closeCalls = if c.onceDone then 1 else 0) :
    (trySend c m).1.closeCalls
      = if (trySend c m).1.onceDone then 1 else 0 := by
  have ht := trySend_close_state c m
  rw [ht.1, ht.2]
  exact hc

/-- Every hub step on the tracked connection preserves the coupling. -/
lemma stepConn_closeInvariant (s : ConnSt) (op : ConnOp)
    (hs : closeInvariant s) : closeInvariant (stepConn s op) := by
  cases op with
  | register =>
    simp only [stepConn]
    by_cases hcond : s.maxClients > 0
        ∧ s.others + (if s.inSet = true then 1 else 0) ≥ s.maxClients
    · rw [if_pos hcond]
      exact closeClientSend_keeps _ (trySend_keeps s.client _ hs)
    · rw [if_neg hcond]
      exact hs
  | unregister =>
    simp only [stepConn]
    split
    · exact closeClientSend_keeps s.client hs
    · exact hs
  | sendTo m =>
    simp only [stepConn, deliverOrEvict]
    split
    · split
      · exact trySend_keeps s.client m hs
      · exact closeClientSend_keeps s.client hs
    · exact hs
  | bcast m =>
    simp only [stepConn, deliverOrEvict]
    split
    · split
      · exact trySend_keeps s.client m hs
      · exact closeClientSend_keeps s.client hs
    · exact hs

/-- The coupling holds after any run. -/
lemma runConn_closeInvariant (ops : List ConnOp) :
    ∀ s : ConnSt, closeInvariant s → closeInvariant (runConn s ops) := by
  induction ops with
  | nil =>
    intro s hs
    exact hs
  | cons op ops ih =>
    intro s hs
    exact ih _ (stepConn_closeInvariant s op hs)

/-- C7: over every sequence of register / unregister / targeted-send /
broadcast steps applied to the same fresh connection, `close` on its outbound
queue executes at most once; unregistering a live connection does close it
and removes it, a further `unregister` once the connection is no longer in
the live set is a complete no-op, and a queue-full eviction also closes
through the same once-guard. -/
theorem sendQueue_closed_at_most_once :
    (∀ (c : HClient) (others maxClients : Nat) (ops : List ConnOp),
        (runConn (initConn c others maxClients) ops).client.closeCalls ≤ 1)
    ∧ (∀ s : ConnSt, s.inSet = true →
        (stepConn s ConnOp.unregister).client.onceDone = true
        ∧ (stepConn s ConnOp.unregister).inSet = false)
    ∧ (∀ s : ConnSt, s.inSet = false → stepConn s ConnOp.unregister = s)
    ∧ (∀ (s : ConnSt) (m : WireMsg), s.inSet = true →
        (trySend s.client m).2 = false →
        (stepConn s (ConnOp.sendTo m)).client.onceDone = true
        ∧ (stepConn s (ConnOp.sendTo m)).inSet = false) := by
  refine ⟨?_, ?_, ?_, ?_⟩
  · intro c others maxClients ops
    have h0 : closeInvariant (initConn c others maxClients) := by
      simp [closeInvariant, initConn]
    have h1 := runConn_closeInvariant ops _ h0
    unfold closeInvariant at h1
    split at h1 <;> omega
  · intro s hin
    constructor <;> simp [stepConn, hin, closeClientSend_onceDone]
  · intro s hin
    simp [stepConn, hin]
  · intro s m hin hfull
    constructor <;> simp [stepConn, deliverOrEvict, hin, hfull,
      closeClientSend_onceDone]

/-- C7 witness: a register / unregister / duplicate-unregister run closes the
queue exactly once, the duplicate being a no-op. -/
theorem sendQueue_closed_at_most_once_check :
    (runConn (initConn (newConnClient "A") 0 0)
        [ConnOp.register, ConnOp.unregister, ConnOp.unregister]).client.closeCalls
      ≤ 1
    ∧ (stepConn { inSet := true, client := newConnClient "A"
                , others := 0, maxClients := 0 }
        ConnOp.unregister).client.onceDone = true
    ∧ stepConn { inSet := false, client := newConnClient "A"
               , others := 0, maxClients := 0 } ConnOp.unregister
        = { inSet := false, client := newConnClient "A"
          , others := 0, maxClients := 0 } :=
  ⟨sendQueue_closed_at_most_once.1 (newConnClient "A") 0 0
      [ConnOp.register, ConnOp.unregister, ConnOp.unregister],
   (sendQueue_closed_at_most_once.2.1
      { inSet := true, client := newConnClient "A"
      , others := 0, maxClients := 0 } rfl).1,
   sendQueue_closed_at_most_once.2.2.1
      { inSet := false, client := newConnClient "A"
      , others := 0, maxClients := 0 } rfl⟩

/-!
## C9: initial messages on connection establishment
-/

/-- C9: a freshly established connection is sent, in order, the current Timer
State, the active-content identifier exactly when one is set, and a
`display_mode` message whose payload is the connection's display mode —
`"show_result"` for a fresh connection. -/
theorem serveWs_initial_sequence (ts : TimerState) (ar a : String) :
    (ar ≠ "" → serveWsSends ts ar (newConnClient a)
        = [WireMsg.timerUpdate ts, WireMsg.setResult ar,
           WireMsg.displayMode "show_result"])
    ∧ (ar = "" → serveWsSends ts ar (newConnClient a)
        = [WireMsg.timerUpdate ts, WireMsg.displayMode "show_result"]) := by
  constructor <;> intro h <;> simp [serveWsSends, newConnClient, h]

/-- C9 witness: both cases at concrete inputs — with `"final.html"` active the
three messages arrive in order; with no active content the `set_result` is
skipped. -/
theorem serveWs_initial_sequence_check :
    serveWsSends timerInit "final.html" (newConnClient "A")
        = [WireMsg.timerUpdate timerInit, WireMsg.setResult "final.html",
           WireMsg.displayMode "show_result"]
    ∧ serveWsSends timerInit "" (newConnClient "A")
        = [WireMsg.timerUpdate timerInit,
           WireMsg.displayMode "show_result"] :=
  ⟨(serveWs_initial_sequence timerInit "final.html" "A").1 (by decide),
   (serveWs_initial_sequence timerInit "" "A").2 rfl⟩
